import Mathlib

/-!
# The CurrenSee task pane script (`src/currensee/ui/src/taskpane/taskpane.js`)

A shallow embedding of the task pane's event handlers and of the parts of the
JavaScript runtime they call, followed by the properties of the summary request
flow and of the settings dialog protocol.

Conventions of the embedding.

* A JavaScript string is the list of its UTF-16 code units (`JsString`).
* The two module variables `config` and `settingsDialog`, the part of the page the
  script touches and the dialog shown by the host make up `State`.  Every
  observable action of a handler is also appended to `State.log`, in program order.
* A handler that can throw returns an `Outcome`: the exception, if any, and the
  state reached when the handler stopped.
* Callbacks that the script hands to asynchronous services (`setTimeout`,
  `setConfig`) are separate definitions; the service is a function that receives
  the callback.
* `Engine` carries the two runtime services whose tables are not reproduced here
  (Unicode lower-casing and number formatting); every general theorem holds for
  every engine.
* The page is taken to contain every element the script addresses, so that each
  jQuery call acts on exactly one element.
* `showError` and `setConfig` are called by the script and defined outside it; their
  definitions here follow the specification and say so.
-/

namespace Taskpane

/-! ## Strings -/

/-- A JavaScript string, as its sequence of UTF-16 code units. -/
abbrev JsString := List Nat

/-- The UTF-16 code units of one Unicode scalar value. -/
def utf16Units (c : Char) : JsString :=
  if c.toNat < 0x10000 then [c.toNat]
  else [0xD800 + (c.toNat - 0x10000) / 0x400, 0xDC00 + (c.toNat - 0x10000) % 0x400]

/-- UTF-16 encoding of a list of characters. -/
def utf16Chars : List Char → JsString
  | [] => []
  | c :: cs => utf16Units c ++ utf16Chars cs

/-- The JavaScript string denoted by a string literal. -/
def utf16 (s : String) : JsString := utf16Chars s.data

/-- Code units removed by `String.prototype.trim`: the ECMAScript `WhiteSpace`
(TAB, VT, FF, SP, NBSP, ZWNBSP and the other space separators) and
`LineTerminator` (LF, CR, LS, PS) code points. -/
def isWhiteSpace (u : Nat) : Bool :=
  u == 0x09 || u == 0x0A || u == 0x0B || u == 0x0C || u == 0x0D || u == 0x20 ||
  u == 0xA0 || u == 0x1680 || (0x2000 ≤ u && u ≤ 0x200A) || u == 0x2028 ||
  u == 0x2029 || u == 0x202F || u == 0x205F || u == 0x3000 || u == 0xFEFF

/-- Leading white space removed. -/
def trimStart (s : JsString) : JsString := s.dropWhile isWhiteSpace

/-- Trailing white space removed. -/
def trimEnd (s : JsString) : JsString := (s.reverse.dropWhile isWhiteSpace).reverse

/-- The method `String.prototype.trim`. -/
def trim (s : JsString) : JsString := trimEnd (trimStart s)

/-- Runtime services taken as parameters: `String.prototype.toLowerCase` (driven by
the Unicode case tables) and `Number::toString` applied to the number that a JSON
numeric literal denotes (driven by floating-point rounding). -/
structure Engine where
  toLowerCase : JsString → JsString
  numberToString : JsString → JsString

/-- Lower-casing of one code unit in the ASCII range. -/
def asciiLowerUnit (u : Nat) : Nat := if 0x41 ≤ u ∧ u ≤ 0x5A then u + 0x20 else u

/-- An engine for evaluating concrete runs: it lower-cases the letters `A` to `Z`,
which is what `toLowerCase` does on a string of ASCII code units, and prints a
numeric literal as it is written, which is what `Number::toString` does on a
literal already in canonical form. -/
def asciiEngine : Engine where
  toLowerCase := fun s => s.map asciiLowerUnit
  numberToString := fun l => l

/-! ## Values and exceptions -/

/-- The exceptions the handlers can raise. -/
inductive JsError where
  | SyntaxError
  | TypeError
deriving DecidableEq

/-- The values `JSON.parse` produces.  A number keeps its literal; an object is the
list of its own properties in creation order. -/
inductive JsValue where
  | null
  | bool (b : Bool)
  | num (literal : JsString)
  | str (s : JsString)
  | arr (items : List JsValue)
  | obj (props : List (JsString × JsValue))

/-! ## `JSON.parse` -/

/-- JSON insignificant white space: TAB, LF, CR, SP. -/
def isJsonWhiteSpace (u : Nat) : Bool :=
  u == 0x09 || u == 0x0A || u == 0x0D || u == 0x20

/-- Skips JSON white space. -/
def skipWs (s : JsString) : JsString := s.dropWhile isJsonWhiteSpace

/-- Decimal digit test. -/
def isDigit (u : Nat) : Bool := 0x30 ≤ u && u ≤ 0x39

/-- Value of a hexadecimal digit, either case. -/
def hexDigit (u : Nat) : Option Nat :=
  if 0x30 ≤ u ∧ u ≤ 0x39 then some (u - 0x30)
  else if 0x41 ≤ u ∧ u ≤ 0x46 then some (u - 0x41 + 10)
  else if 0x61 ≤ u ∧ u ≤ 0x66 then some (u - 0x61 + 10)
  else none

/-- The code unit written `\uXXXX`. -/
def hex4 (a b c d : Nat) : Option Nat :=
  match hexDigit a, hexDigit b, hexDigit c, hexDigit d with
  | some x, some y, some z, some w => some (((x * 16 + y) * 16 + z) * 16 + w)
  | _, _, _, _ => none

/-- The code unit denoted by a one-letter escape `\"  \\  \/  \b  \f  \n  \r  \t`. -/
def simpleEscape (u : Nat) : Option Nat :=
  if u == 0x22 then some 0x22
  else if u == 0x5C then some 0x5C
  else if u == 0x2F then some 0x2F
  else if u == 0x62 then some 0x08
  else if u == 0x66 then some 0x0C
  else if u == 0x6E then some 0x0A
  else if u == 0x72 then some 0x0D
  else if u == 0x74 then some 0x09
  else none

/-- Puts a code unit in front of a parsed string. -/
def consUnit (u : Nat) : Option (JsString × JsString) → Option (JsString × JsString)
  | some (v, rest) => some (u :: v, rest)
  | none => none

/-- Reads a JSON string after its opening quote; returns its value and the input
after the closing quote.  A control character, a bad escape or a missing closing
quote is an error. -/
def parseStringBody : JsString → Option (JsString × JsString)
  | [] => none
  | u :: rest =>
    if u == 0x22 then some ([], rest)
    else if u == 0x5C then
      match rest with
      | [] => none
      | e :: rest1 =>
        if e == 0x75 then
          match rest1 with
          | a :: b :: c :: d :: rest2 =>
            match hex4 a b c d with
            | some x => consUnit x (parseStringBody rest2)
            | none => none
          | _ => none
        else
          match simpleEscape e with
          | some x => consUnit x (parseStringBody rest1)
          | none => none
    else if u < 0x20 then none
    else consUnit u (parseStringBody rest)

/-- Reads a non-empty run of digits. -/
def parseDigits (s : JsString) : Option (JsString × JsString) :=
  if s.takeWhile isDigit = [] then none else some (s.takeWhile isDigit, s.dropWhile isDigit)

/-- Integer part of a JSON number: `0`, or a non-zero digit followed by digits. -/
def parseInt (s : JsString) : Option (JsString × JsString) :=
  match s with
  | [] => none
  | d :: rest =>
    if d == 0x30 then some ([d], rest)
    else if isDigit d then some (d :: rest.takeWhile isDigit, rest.dropWhile isDigit)
    else none

/-- Optional fraction: `.` followed by at least one digit. -/
def parseFrac (s : JsString) : Option (JsString × JsString) :=
  match s with
  | u :: rest =>
    if u == 0x2E then
      match parseDigits rest with
      | some (ds, rest1) => some (u :: ds, rest1)
      | none => none
    else some ([], s)
  | [] => some ([], s)

/-- Optional exponent: `e` or `E`, an optional sign, at least one digit. -/
def parseExp (s : JsString) : Option (JsString × JsString) :=
  match s with
  | u :: rest =>
    if u == 0x65 || u == 0x45 then
      match rest with
      | sg :: rest1 =>
        if sg == 0x2B || sg == 0x2D then
          match parseDigits rest1 with
          | some (ds, rest2) => some (u :: sg :: ds, rest2)
          | none => none
        else
          match parseDigits rest with
          | some (ds, rest2) => some (u :: ds, rest2)
          | none => none
      | [] => none
    else some ([], s)
  | [] => some ([], s)

/-- Reads an unsigned JSON number; returns its literal and the remaining input. -/
def parseUnsigned (s : JsString) : Option (JsString × JsString) :=
  match parseInt s with
  | none => none
  | some (i, s1) =>
    match parseFrac s1 with
    | none => none
    | some (f, s2) =>
      match parseExp s2 with
      | none => none
      | some (e, s3) => some (i ++ f ++ e, s3)

/-- Reads a JSON number: an optional minus sign and an unsigned number. -/
def parseNumber (s : JsString) : Option (JsString × JsString) :=
  match s with
  | u :: rest =>
    if u == 0x2D then
      match parseUnsigned rest with
      | some (l, rest1) => some (u :: l, rest1)
      | none => none
    else parseUnsigned s
  | [] => none

/-- Removes `word` from the front of `s` when `s` starts with it. -/
def stripWord (word s : JsString) : Option JsString :=
  if s.take word.length = word then some (s.drop word.length) else none

/-- The step `CreateDataProperty`: an existing property keeps its place and takes the
new value, a new property goes last. -/
def setProp (key : JsString) (v : JsValue) :
    List (JsString × JsValue) → List (JsString × JsValue)
  | [] => [(key, v)]
  | (k, w) :: ps => if k = key then (k, v) :: ps else (k, w) :: setProp key v ps

/-- The object built from the members of an object literal, in order. -/
def mkObject (members : List (JsString × JsValue)) : JsValue :=
  JsValue.obj (members.foldl (fun ps m => setProp m.1 m.2 ps) [])

/-- Result of reading a value. -/
abbrev ValueResult := Option (JsValue × JsString)

/-- Result of reading the elements of an array. -/
abbrev ElementsResult := Option (List JsValue × JsString)

/-- Result of reading the members of an object. -/
abbrev MembersResult := Option (List (JsString × JsValue) × JsString)

/-- Reads one JSON value at the front of the input (white space already skipped),
given the readers for the members of an object and the elements of an array. -/
def valueStep (members : JsString → MembersResult) (elements : JsString → ElementsResult)
    (s : JsString) : ValueResult :=
  match s with
  | [] => none
  | u :: rest =>
    if u == 0x7B then
      match skipWs rest with
      | [] => none
      | c :: rest1 =>
        if c == 0x7D then some (mkObject [], rest1)
        else
          match members (c :: rest1) with
          | some (ms, rest2) => some (mkObject ms, rest2)
          | none => none
    else if u == 0x5B then
      match skipWs rest with
      | [] => none
      | c :: rest1 =>
        if c == 0x5D then some (JsValue.arr [], rest1)
        else
          match elements (c :: rest1) with
          | some (vs, rest2) => some (JsValue.arr vs, rest2)
          | none => none
    else if u == 0x22 then
      match parseStringBody rest with
      | some (v, rest1) => some (JsValue.str v, rest1)
      | none => none
    else if u == 0x2D || isDigit u then
      match parseNumber s with
      | some (l, rest1) => some (JsValue.num l, rest1)
      | none => none
    else
      match stripWord (utf16 "true") s with
      | some rest1 => some (JsValue.bool true, rest1)
      | none =>
        match stripWord (utf16 "false") s with
        | some rest1 => some (JsValue.bool false, rest1)
        | none =>
          match stripWord (utf16 "null") s with
          | some rest1 => some (JsValue.null, rest1)
          | none => none

/-- Reads the elements of a non-empty array up to and including the closing `]`,
given the reader for a value and the reader for the elements after a comma. -/
def elementsStep (value : JsString → ValueResult) (elements : JsString → ElementsResult)
    (s : JsString) : ElementsResult :=
  match value s with
  | none => none
  | some (v, rest) =>
    match skipWs rest with
    | [] => none
    | c :: rest1 =>
      if c == 0x2C then
        match elements (skipWs rest1) with
        | some (vs, rest2) => some (v :: vs, rest2)
        | none => none
      else if c == 0x5D then some ([v], rest1)
      else none

/-- Reads the members of a non-empty object up to and including the closing `}`,
given the reader for a value and the reader for the members after a comma. -/
def membersStep (value : JsString → ValueResult) (members : JsString → MembersResult)
    (s : JsString) : MembersResult :=
  match s with
  | [] => none
  | q :: rest =>
    if q == 0x22 then
      match parseStringBody rest with
      | none => none
      | some (key, rest1) =>
        match skipWs rest1 with
        | [] => none
        | c :: rest2 =>
          if c == 0x3A then
            match value (skipWs rest2) with
            | none => none
            | some (v, rest3) =>
              match skipWs rest3 with
              | [] => none
              | d :: rest4 =>
                if d == 0x2C then
                  match members (skipWs rest4) with
                  | some (ms, rest5) => some ((key, v) :: ms, rest5)
                  | none => none
                else if d == 0x7D then some ([(key, v)], rest4)
                else none
          else none
    else none

mutual
/-- The reader of a value, with a bound on the depth of the recursion. -/
def parseValue : Nat → JsString → ValueResult
  | 0, _ => none
  | fuel + 1, s => valueStep (parseMembers fuel) (parseElements fuel) s
/-- The reader of array elements, with a bound on the depth of the recursion. -/
def parseElements : Nat → JsString → ElementsResult
  | 0, _ => none
  | fuel + 1, s => elementsStep (parseValue fuel) (parseElements fuel) s
/-- The reader of object members, with a bound on the depth of the recursion. -/
def parseMembers : Nat → JsString → MembersResult
  | 0, _ => none
  | fuel + 1, s => membersStep (parseValue fuel) (parseMembers fuel) s
end

/-- Recursion bound for `text`: the readers give the same result with any larger
bound (`parseValue_fuel`). -/
def parseFuel (text : JsString) : Nat := 2 * text.length + 2

/-- The function `JSON.parse` on a string: one value surrounded by optional white
space, or a `SyntaxError`. -/
def JSON.parse (text : JsString) : Except JsError JsValue :=
  match parseValue (parseFuel text) (skipWs text) with
  | some (v, rest) =>
    if skipWs rest = [] then Except.ok v else Except.error JsError.SyntaxError
  | none => Except.error JsError.SyntaxError

/-! ## `JSON.stringify` of a configuration record -/

/-- Leading surrogate test. -/
def isLeadSurrogate (u : Nat) : Bool := 0xD800 ≤ u && u ≤ 0xDBFF

/-- Trailing surrogate test. -/
def isTrailSurrogate (u : Nat) : Bool := 0xDC00 ≤ u && u ≤ 0xDFFF

/-- The lower-case hexadecimal digit of a number below sixteen. -/
def hexChar (n : Nat) : Nat := if n < 10 then 0x30 + n else 0x61 + (n - 10)

/-- The escape `\uXXXX` of a code unit. -/
def unicodeEscape (u : Nat) : JsString :=
  [0x5C, 0x75, hexChar (u / 4096 % 16), hexChar (u / 256 % 16), hexChar (u / 16 % 16),
    hexChar (u % 16)]

/-- How `QuoteJSONString` writes a code point that is a single code unit: a
two-character escape for backspace, tab, line feed, form feed, carriage return, the
quote and the backslash; `\uXXXX` for the other control characters and for an
unpaired surrogate; the code unit itself otherwise. -/
def quoteUnit (u : Nat) : JsString :=
  if u == 0x08 then [0x5C, 0x62]
  else if u == 0x09 then [0x5C, 0x74]
  else if u == 0x0A then [0x5C, 0x6E]
  else if u == 0x0C then [0x5C, 0x66]
  else if u == 0x0D then [0x5C, 0x72]
  else if u == 0x22 then [0x5C, 0x22]
  else if u == 0x5C then [0x5C, 0x5C]
  else if u < 0x20 || isLeadSurrogate u || isTrailSurrogate u then unicodeEscape u
  else [u]

/-- The characters `QuoteJSONString` puts between the quotes: a surrogate pair is
copied, every other code unit is written by `quoteUnit`. -/
def quoteUnits : JsString → JsString
  | [] => []
  | [u] => quoteUnit u
  | u :: l :: rest =>
    if isLeadSurrogate u && isTrailSurrogate l then u :: l :: quoteUnits rest
    else quoteUnit u ++ quoteUnits (l :: rest)

/-- The text `JSON.stringify` gives for a record whose only property is
`emailAddress`, with a string value. -/
def stringifyEmailAddress (a : JsString) : JsString :=
  utf16 "\x7b\"emailAddress\":\"" ++ quoteUnits a ++ utf16 "\"\x7d"

/-! ## Conversions applied to parsed values -/

/-- Own-property test on a property list. -/
def hasOwn (key : JsString) (props : List (JsString × JsValue)) : Bool :=
  props.any (fun p => p.1 == key)

mutual
/-- The abstract operation `ToString` on a parsed value.  An array is joined with
commas; a plain object prints as `[object Object]` unless an own `toString`
property (never callable in a parsed value) hides `Object.prototype.toString`, in
which case the conversion to a primitive fails with a `TypeError`. -/
def toStringValue (E : Engine) : JsValue → Except JsError JsString
  | JsValue.null => Except.ok (utf16 "null")
  | JsValue.bool true => Except.ok (utf16 "true")
  | JsValue.bool false => Except.ok (utf16 "false")
  | JsValue.num l => Except.ok (E.numberToString l)
  | JsValue.str v => Except.ok v
  | JsValue.arr items =>
    match joinParts E items with
    | Except.ok parts => Except.ok (List.intercalate (utf16 ",") parts)
    | Except.error e => Except.error e
  | JsValue.obj props =>
    if hasOwn (utf16 "toString") props then Except.error JsError.TypeError
    else Except.ok (utf16 "[object Object]")
/-- The strings `Array.prototype.join` puts between the separators: the empty string
for `null`, `ToString` of the element otherwise. -/
def joinParts (E : Engine) : List JsValue → Except JsError (List JsString)
  | [] => Except.ok []
  | JsValue.null :: vs =>
    match joinParts E vs with
    | Except.ok parts => Except.ok ([] :: parts)
    | Except.error e => Except.error e
  | v :: vs =>
    match toStringValue E v with
    | Except.error e => Except.error e
    | Except.ok part =>
      match joinParts E vs with
      | Except.ok parts => Except.ok (part :: parts)
      | Except.error e => Except.error e
end

/-- The expression `config.emailAddress` on a parsed value: a `TypeError` on `null`,
the own property of an object when it has one, `undefined` (`none`) otherwise, as no
prototype defines `emailAddress`. -/
def getEmailAddress : JsValue → Except JsError (Option JsValue)
  | JsValue.null => Except.error JsError.TypeError
  | JsValue.obj props => Except.ok (props.lookup (utf16 "emailAddress"))
  | _ => Except.ok none

/-- The template literal with the text "Configured for: " and one substitution. -/
def configuredFor (E : Engine) (x : Option JsValue) : Except JsError JsString :=
  match x with
  | none => Except.ok (utf16 "Configured for: " ++ utf16 "undefined")
  | some v =>
    match toStringValue E v with
    | Except.ok t => Except.ok (utf16 "Configured for: " ++ t)
    | Except.error e => Except.error e

/-! ## The mock backend data -/

/-- A summary record. -/
structure Summary where
  bio : JsString
  interaction : JsString
  market : JsString
deriving DecidableEq

/-- The record stored under `"johnsmith@example.com"`. -/
def johnSmithSummary : Summary where
  bio := utf16 "John Smith is a senior product manager at Acme Corp with a background in finance."
  interaction := utf16 "Asked about pricing updates and scheduled a follow-up demo last week."
  market := utf16 "Acme's stock rose 3% this quarter with notable product growth in cloud services."

/-- The record stored under `"janedoe@example.com"`. -/
def janeDoeSummary : Summary where
  bio := utf16 "Jane Doe is the head of procurement at InnovateX with experience in B2B vendor relationships."
  interaction := utf16 "Confirmed the contract, requested onboarding details, and mentioned Q2 budget expansion."
  market := utf16 "InnovateX saw stable performance with a 1.5% revenue increase YOY."

/-- Own properties of the object literal `mockSummaries`. -/
def mockSummaries : List (JsString × Summary) :=
  [ (utf16 "johnsmith@example.com", johnSmithSummary),
    (utf16 "janedoe@example.com", janeDoeSummary) ]

/-- Property names every plain object inherits from `Object.prototype`. -/
def objectPrototypeKeys : List JsString :=
  [ utf16 "constructor", utf16 "__defineGetter__", utf16 "__defineSetter__",
    utf16 "hasOwnProperty", utf16 "__lookupGetter__", utf16 "__lookupSetter__",
    utf16 "isPrototypeOf", utf16 "propertyIsEnumerable", utf16 "toString",
    utf16 "valueOf", utf16 "__proto__", utf16 "toLocaleString" ]

/-- What a property read on `mockSummaries` can yield besides `undefined`: one of the
two records, or the value inherited from `Object.prototype` under that name (a
built-in function, or the prototype object itself for `__proto__`). -/
inductive SummaryValue where
  | record (r : Summary)
  | inherited (key : JsString)
deriving DecidableEq

/-- The member access `mockSummaries[key]`: own properties first, then the prototype
chain; `none` is `undefined`. -/
def mockSummariesGet (key : JsString) : Option SummaryValue :=
  match mockSummaries.lookup key with
  | some r => some (SummaryValue.record r)
  | none => if key ∈ objectPrototypeKeys then some (SummaryValue.inherited key) else none

/-- The object literal on the right of `||` in `generateSummary`. -/
def fallbackSummary (email : JsString) : Summary where
  bio := utf16 "No bio available for " ++ email ++ utf16 "."
  interaction := utf16 "No interaction history available for " ++ email ++ utf16 "."
  market := utf16 "No market data available for " ++ email ++ utf16 "."

/-- The value of `mockSummaries[email.toLowerCase()] || {...}`.  Records, functions
and the prototype object are all truthy, so only `undefined` selects the right-hand
side. -/
def lookupSummary (E : Engine) (email : JsString) : SummaryValue :=
  match mockSummariesGet (E.toLowerCase email) with
  | some v => v
  | none => SummaryValue.record (fallbackSummary email)

/-- The reads `summary.bio`: `none` is `undefined`, which is what an inherited
function or the prototype object gives. -/
def SummaryValue.bio : SummaryValue → Option JsString
  | SummaryValue.record r => some r.bio
  | SummaryValue.inherited _ => none

/-- The read `summary.interaction`. -/
def SummaryValue.interaction : SummaryValue → Option JsString
  | SummaryValue.record r => some r.interaction
  | SummaryValue.inherited _ => none

/-- The read `summary.market`. -/
def SummaryValue.market : SummaryValue → Option JsString
  | SummaryValue.record r => some r.market
  | SummaryValue.inherited _ => none

/-! ## State of the task pane -/

/-- The page regions the script shows and hides: `#not-configured`,
`#configured-section`, `#loading-indicator`, `#summary-output`. -/
inductive Region where
  | notConfigured
  | configuredSection
  | loadingIndicator
  | summaryOutput
deriving DecidableEq

/-- The elements whose text the script sets: `#email-display`, `#bio-summary-text`,
`#interaction-summary-text`, `#market-summary-text`. -/
inductive TextRegion where
  | emailDisplay
  | bioSummaryText
  | interactionSummaryText
  | marketSummaryText
deriving DecidableEq

/-- The two event types registered on a dialog. -/
inductive EventType where
  | DialogMessageReceived
  | DialogEventReceived
deriving DecidableEq

/-- Values of the module variable `settingsDialog`: never assigned, `null`, or the
dialog object the host returned. -/
inductive DialogRef where
  | undefined
  | null
  | handle
deriving DecidableEq

/-- Observable actions, in the order the handlers perform them. -/
inductive Effect where
  | show (r : Region)
  | hide (r : Region)
  | text (t : TextRegion) (value : JsString)
  | showError (msg : JsString)
  | setTimeout (delay : Nat) (email : JsString)
  | setConfig (cfg : JsValue)
  | close
  | addEventHandler (type : EventType)

/-- The part of the page the script reads and writes.  `emailSelect` is the result of
`$('#email-select').val()`: `none` is `null`, returned when no option is selected. -/
structure Dom where
  visible : Region → Bool
  text : TextRegion → JsString
  emailSelect : Option JsString

/-- The state the handlers act on.  `config` is `none` while the variable is still
`undefined`; `dialogShown` tells whether the host displays the dialog;
`errorMessage` is the message last handed to `showError`. -/
structure State where
  config : Option JsValue
  settingsDialog : DialogRef
  dialogShown : Bool
  dom : Dom
  errorMessage : Option JsString
  log : List Effect

/-- Result of running a handler: the exception that ended it, if any, and the state
it reached. -/
structure Outcome where
  thrown : Option JsError
  state : State

/-- The state when the script has been loaded and nothing has run yet, on a page
with every region hidden and every text empty. -/
def State.init : State where
  config := none
  settingsDialog := DialogRef.undefined
  dialogShown := false
  dom := { visible := fun _ => false, text := fun _ => [], emailSelect := none }
  errorMessage := none
  log := []

/-- Visibility of one region replaced. -/
def Dom.setVisible (r : Region) (b : Bool) (d : Dom) : Dom :=
  { d with visible := fun x => if x = r then b else d.visible x }

/-- Text of one element replaced. -/
def Dom.setText (t : TextRegion) (value : JsString) (d : Dom) : Dom :=
  { d with text := fun x => if x = t then value else d.text x }

/-- The call `$(region).show()`. -/
def jqShow (r : Region) (s : State) : State :=
  { s with dom := s.dom.setVisible r true, log := s.log ++ [Effect.show r] }

/-- The call `$(region).hide()`. -/
def jqHide (r : Region) (s : State) : State :=
  { s with dom := s.dom.setVisible r false, log := s.log ++ [Effect.hide r] }

/-- The call `$(element).text(value)`.  With `undefined` (`none`) as argument jQuery
takes the call for a read and changes nothing. -/
def jqText (t : TextRegion) (value : Option JsString) (s : State) : State :=
  match value with
  | some v => { s with dom := s.dom.setText t v, log := s.log ++ [Effect.text t v] }
  | none => s

/-! ## The handlers -/

/-- Modelled from the spec: `showError` is called by the script and defined outside
it.  The spec has it surface a user-visible, alert-style message: the message is
recorded as the one on display and no region of the page is touched. -/
def showError (msg : JsString) (s : State) : State :=
  { s with errorMessage := some msg, log := s.log ++ [Effect.showError msg] }

/-- Modelled from the spec: `setConfig` is called by the script and defined outside
it.  The spec has it persist the configuration and then run its completion
callback: the request is recorded and the callback runs. -/
def setConfig (cfg : JsValue) (callback : State → Outcome) (s : State) : Outcome :=
  callback { s with log := s.log ++ [Effect.setConfig cfg] }

/-- The string appended by `'Could not generate summary: ' + error`; `none` is
`null`. -/
def errorText : Option JsString → JsString
  | some d => d
  | none => utf16 "null"

/-- The completion callback the click handler passes to `generateSummary`.  The
argument `summary` is `none` for `null` or `undefined`. -/
def summaryCallback (summary : Option SummaryValue) (error : Option JsString)
    (s : State) : State :=
  let s1 := jqHide Region.loadingIndicator s
  match summary with
  | some v =>
    let s2 := jqText TextRegion.bioSummaryText v.bio s1
    let s3 := jqText TextRegion.interactionSummaryText v.interaction s2
    let s4 := jqText TextRegion.marketSummaryText v.market s3
    jqShow Region.summaryOutput s4
  | none => showError (utf16 "Could not generate summary: " ++ errorText error) s1

/-- The function `generateSummary` hands to `setTimeout`: it looks the summary up and
calls the callback with it and a `null` error. -/
def generateSummaryTimeout (E : Engine) (email : JsString)
    (callback : Option SummaryValue → Option JsString → State → State) (s : State) :
    State :=
  callback (some (lookupSummary E email)) none s

/-- The call `generateSummary(email, callback)`: it schedules
`generateSummaryTimeout E email callback` to run after 1000 ms and returns. -/
def generateSummary (email : JsString) (s : State) : State :=
  { s with log := s.log ++ [Effect.setTimeout 1000 email] }

/-- The click handler of `#generate-summary-button`.  The scheduled completion is
`generateSummaryTimeout E (trim v) summaryCallback`. -/
def generateSummaryClick (s : State) : Outcome :=
  match s.dom.emailSelect with
  | none => { thrown := some JsError.TypeError, state := s }
  | some v =>
    if trim v = [] then
      { thrown := none, state := showError (utf16 "Please select a valid email address.") s }
    else
      { thrown := none, state := generateSummary (trim v) (jqShow Region.loadingIndicator s) }

/-- One whole summary request: the click, then the timer when the click scheduled
one. -/
def summaryRequest (E : Engine) (s : State) : State :=
  match s.dom.emailSelect with
  | none => (generateSummaryClick s).state
  | some v =>
    if trim v = [] then (generateSummaryClick s).state
    else generateSummaryTimeout E (trim v) summaryCallback (generateSummaryClick s).state

/-- The argument of a dialog message event. -/
structure DialogMessage where
  message : JsString

/-- The completion callback `receiveMessage` passes to `setConfig`. -/
def setConfigCallback (E : Engine) (s : State) : Outcome :=
  match s.settingsDialog with
  | DialogRef.handle =>
    let s1 := { s with dialogShown := false, log := s.log ++ [Effect.close] }
    let s2 := { s1 with settingsDialog := DialogRef.null }
    let s3 := jqHide Region.notConfigured s2
    let s4 := jqShow Region.configuredSection s3
    match s4.config with
    | none => { thrown := some JsError.TypeError, state := s4 }
    | some c =>
      match getEmailAddress c with
      | Except.error e => { thrown := some e, state := s4 }
      | Except.ok x =>
        match configuredFor E x with
        | Except.error e => { thrown := some e, state := s4 }
        | Except.ok t =>
          { thrown := none, state := jqText TextRegion.emailDisplay (some t) s4 }
  | _ => { thrown := some JsError.TypeError, state := s }

/-- The handler `receiveMessage`, run up to the end of the completion callback. -/
def receiveMessage (E : Engine) (message : DialogMessage) (s : State) : Outcome :=
  match JSON.parse message.message with
  | Except.error e => { thrown := some e, state := s }
  | Except.ok v => setConfig v (setConfigCallback E) { s with config := some v }

/-- The argument of a dialog lifecycle event: the code the host reports. -/
structure DialogEvent where
  error : Nat

/-- The handler `dialogClosed`; it does not look at its argument. -/
def dialogClosed (_message : DialogEvent) (s : State) : State :=
  { s with settingsDialog := DialogRef.null }

/-- The callback of `displayDialogAsync` (the same in the settings icon handler and
in `openTaskPane`); `value` is `result.value`, a dialog object exactly when the host
has displayed the dialog. -/
def displayDialogCallback (value : DialogRef) (s : State) : Outcome :=
  let s1 := { s with settingsDialog := value }
  match value with
  | DialogRef.handle =>
    { thrown := none
      state := { s1 with
        dialogShown := true
        log := s1.log ++ [Effect.addEventHandler EventType.DialogMessageReceived,
                          Effect.addEventHandler EventType.DialogEventReceived] } }
  | _ => { thrown := some JsError.TypeError, state := s1 }

/-! ## Sample states -/

/-- The state `s` with `value` selected in `#email-select`. -/
def selected (value : JsString) (s : State) : State :=
  { s with dom := { s.dom with emailSelect := some value } }

/-- The initial state after the host has displayed the settings dialog. -/
def dialogOpenState : State := (displayDialogCallback DialogRef.handle State.init).state

/-- The state after a completed request for "johnsmith@example.com", with
"constructor" selected next. -/
def constructorSelected : State :=
  selected (utf16 "constructor")
    (summaryRequest asciiEngine (selected (utf16 "johnsmith@example.com") State.init))

/-! ## Classes of actions -/

/-- Tells whether an action hides the loading indicator. -/
def Effect.isHideLoading : Effect → Bool
  | Effect.hide Region.loadingIndicator => true
  | _ => false

/-- Tells whether an action reveals the summary output region. -/
def Effect.isShowSummaryOutput : Effect → Bool
  | Effect.show Region.summaryOutput => true
  | _ => false

/-- Tells whether an action shows an error message. -/
def Effect.isShowError : Effect → Bool
  | Effect.showError _ => true
  | _ => false

/-! ## A request as the click and the timers it schedules -/

/-- The actions performed from `before` to `after`: what the log of `after` holds
beyond the log of `before`. -/
def actionsSince (before after : State) : List Effect :=
  after.log.drop before.log.length

/-- The identifiers of the `generateSummary` timers that a list of actions
schedules, in order. -/
def scheduledTimers : List Effect → List JsString
  | [] => []
  | Effect.setTimeout _ email :: rest => email :: scheduledTimers rest
  | _ :: rest => scheduledTimers rest

/-- Fires the given timers in order: each runs the function `generateSummary`
scheduled for its identifier, with the callback of the click handler. -/
def runTimers (E : Engine) : List JsString → State → State
  | [], s => s
  | email :: rest, s =>
    runTimers E rest (generateSummaryTimeout E email summaryCallback s)

/-- The completion of a request: every timer that the click in state `s` scheduled,
fired from the state `s'` the page has reached by then. -/
def completeRequest (E : Engine) (s s' : State) : State :=
  runTimers E (scheduledTimers (actionsSince s (generateSummaryClick s).state)) s'

/-! ## Auxiliary facts -/

theorem trim_eq_nil_of_blank (v : JsString) (h : ∀ u ∈ v, isWhiteSpace u = true) :
    trim v = [] := by
  have h1 : trimStart v = [] := by
    unfold trimStart
    exact List.dropWhile_eq_nil_iff.mpr h
  simp [trim, h1, trimEnd]

theorem JSON.parse_error (text : JsString) (e : JsError)
    (h : JSON.parse text = Except.error e) : e = JsError.SyntaxError := by
  unfold JSON.parse at h
  split at h
  · split at h
    · cases h
    · cases h; rfl
  · cases h; rfl

/-! ## The JSON reader: consumed input and recursion bound -/

theorem skipWs_length_le (s : JsString) : (skipWs s).length ≤ s.length := by
  unfold skipWs
  exact (List.dropWhile_sublist _).length_le

theorem consUnit_length (u : Nat) (p : Option (JsString × JsString)) (s : JsString)
    (h : ∀ v r, p = some (v, r) → r.length ≤ s.length) (v r : JsString)
    (hc : consUnit u p = some (v, r)) : r.length ≤ s.length := by
  cases p with
  | none => simp [consUnit] at hc
  | some q =>
    obtain ⟨v0, r0⟩ := q
    simp only [consUnit, Option.some.injEq, Prod.mk.injEq] at hc
    obtain ⟨_, rfl⟩ := hc
    exact h v0 r0 rfl

theorem parseStringBody_length (n : Nat) : ∀ (s v r : JsString), s.length ≤ n →
    parseStringBody s = some (v, r) → r.length < s.length := by
  induction n with
  | zero =>
    intro s v r hn h
    cases s with
    | nil => simp [parseStringBody] at h
    | cons u rest => simp at hn
  | succ n ih =>
    intro s v r hn h
    cases s with
    | nil => simp [parseStringBody] at h
    | cons u rest =>
      have hrest : rest.length ≤ n := by simpa using hn
      unfold parseStringBody at h
      split at h
      · simp only [Option.some.injEq, Prod.mk.injEq] at h
        obtain ⟨_, rfl⟩ := h
        simp
      · split at h
        · split at h
          · cases h
          · rename_i e rest1
            split at h
            · split at h
              · rename_i a b c d rest2
                split at h
                · have := consUnit_length _ (parseStringBody rest2) rest2
                    (fun v r hv => Nat.le_of_lt (ih rest2 v r (by simp at hrest; omega) hv)) v r h
                  simp; omega
                · cases h
              · cases h
            · split at h
              · have := consUnit_length _ (parseStringBody rest1) rest1
                  (fun v r hv => Nat.le_of_lt (ih rest1 v r (by simp at hrest; omega) hv)) v r h
                simp; omega
              · cases h
        · split at h
          · cases h
          · have := consUnit_length _ (parseStringBody rest) rest
              (fun v r hv => Nat.le_of_lt (ih rest v r hrest hv)) v r h
            simp; omega

theorem parseStringBody_length_le (s v r : JsString)
    (h : parseStringBody s = some (v, r)) : r.length < s.length :=
  parseStringBody_length s.length s v r (Nat.le_refl _) h

theorem dropWhile_length_le (p : Nat → Bool) (s : JsString) :
    (s.dropWhile p).length ≤ s.length :=
  (List.dropWhile_sublist _).length_le

theorem parseDigits_length (s l r : JsString) (h : parseDigits s = some (l, r)) :
    r.length ≤ s.length := by
  unfold parseDigits at h
  split at h
  · cases h
  · simp only [Option.some.injEq, Prod.mk.injEq] at h
    obtain ⟨_, rfl⟩ := h
    exact dropWhile_length_le _ _

theorem parseInt_length (s l r : JsString) (h : parseInt s = some (l, r)) :
    r.length ≤ s.length := by
  unfold parseInt at h
  split at h
  · cases h
  · rename_i d rest
    split at h
    · simp only [Option.some.injEq, Prod.mk.injEq] at h
      obtain ⟨_, rfl⟩ := h
      simp
    · split at h
      · simp only [Option.some.injEq, Prod.mk.injEq] at h
        obtain ⟨_, rfl⟩ := h
        have := dropWhile_length_le isDigit rest
        simp; omega
      · cases h

theorem parseFrac_length (s l r : JsString) (h : parseFrac s = some (l, r)) :
    r.length ≤ s.length := by
  unfold parseFrac at h
  split at h
  · rename_i u rest
    split at h
    · split at h
      · rename_i ds rest1 hd
        simp only [Option.some.injEq, Prod.mk.injEq] at h
        obtain ⟨_, rfl⟩ := h
        have := parseDigits_length rest ds rest1 hd
        simp; omega
      · cases h
    · simp only [Option.some.injEq, Prod.mk.injEq] at h
      obtain ⟨_, rfl⟩ := h
      exact Nat.le_refl _
  · simp only [Option.some.injEq, Prod.mk.injEq] at h
    obtain ⟨_, rfl⟩ := h
    exact Nat.le_refl _

theorem parseExp_length (s l r : JsString) (h : parseExp s = some (l, r)) :
    r.length ≤ s.length := by
  unfold parseExp at h
  split at h
  · rename_i u rest
    split at h
    · split at h
      · rename_i sg rest1
        split at h
        · split at h
          · rename_i ds rest2 hd
            simp only [Option.some.injEq, Prod.mk.injEq] at h
            obtain ⟨_, rfl⟩ := h
            have := parseDigits_length rest1 ds rest2 hd
            simp; omega
          · cases h
        · split at h
          · rename_i ds rest2 hd
            simp only [Option.some.injEq, Prod.mk.injEq] at h
            obtain ⟨_, rfl⟩ := h
            have := parseDigits_length (sg :: rest1) ds rest2 hd
            simp at this ⊢; omega
          · cases h
      · cases h
    · simp only [Option.some.injEq, Prod.mk.injEq] at h
      obtain ⟨_, rfl⟩ := h
      exact Nat.le_refl _
  · simp only [Option.some.injEq, Prod.mk.injEq] at h
    obtain ⟨_, rfl⟩ := h
    exact Nat.le_refl _

theorem parseUnsigned_length (s l r : JsString) (h : parseUnsigned s = some (l, r)) :
    r.length ≤ s.length := by
  unfold parseUnsigned at h
  split at h
  · cases h
  · rename_i i s1 hi
    split at h
    · cases h
    · rename_i f s2 hf
      split at h
      · cases h
      · rename_i e s3 he
        simp only [Option.some.injEq, Prod.mk.injEq] at h
        obtain ⟨_, rfl⟩ := h
        have h1 := parseInt_length s i s1 hi
        have h2 := parseFrac_length s1 f s2 hf
        have h3 := parseExp_length s2 e s3 he
        omega

theorem parseNumber_length (s l r : JsString) (h : parseNumber s = some (l, r)) :
    r.length ≤ s.length := by
  unfold parseNumber at h
  split at h
  · rename_i u rest
    split at h
    · split at h
      · rename_i l1 rest1 hu
        simp only [Option.some.injEq, Prod.mk.injEq] at h
        obtain ⟨_, rfl⟩ := h
        have := parseUnsigned_length rest l1 rest1 hu
        simp; omega
      · cases h
    · exact parseUnsigned_length _ l r h
  · cases h

theorem stripWord_length (w s r : JsString) (h : stripWord w s = some r) :
    r.length ≤ s.length := by
  unfold stripWord at h
  split at h
  · simp only [Option.some.injEq] at h
    subst h
    simp
  · cases h

theorem valueStep_length (members : JsString → MembersResult)
    (elements : JsString → ElementsResult)
    (hm : ∀ x ms r, members x = some (ms, r) → r.length ≤ x.length)
    (he : ∀ x vs r, elements x = some (vs, r) → r.length ≤ x.length)
    (s : JsString) (v : JsValue) (r : JsString)
    (h : valueStep members elements s = some (v, r)) : r.length ≤ s.length := by
  unfold valueStep at h
  split at h
  · cases h
  · rename_i u rest
    split at h
    · split at h
      · cases h
      · rename_i c rest1 hws
        have hlen := skipWs_length_le rest
        rw [hws] at hlen
        simp only [List.length_cons] at hlen ⊢
        split at h
        · simp only [Option.some.injEq, Prod.mk.injEq] at h
          obtain ⟨_, rfl⟩ := h
          omega
        · split at h
          · rename_i ms rest2 hms
            simp only [Option.some.injEq, Prod.mk.injEq] at h
            obtain ⟨_, rfl⟩ := h
            have := hm _ _ _ hms
            simp only [List.length_cons] at this
            omega
          · cases h
    · split at h
      · split at h
        · cases h
        · rename_i c rest1 hws
          have hlen := skipWs_length_le rest
          rw [hws] at hlen
          simp only [List.length_cons] at hlen ⊢
          split at h
          · simp only [Option.some.injEq, Prod.mk.injEq] at h
            obtain ⟨_, rfl⟩ := h
            omega
          · split at h
            · rename_i vs rest2 hvs
              simp only [Option.some.injEq, Prod.mk.injEq] at h
              obtain ⟨_, rfl⟩ := h
              have := he _ _ _ hvs
              simp only [List.length_cons] at this
              omega
            · cases h
      · split at h
        · split at h
          · rename_i w rest1 hw
            simp only [Option.some.injEq, Prod.mk.injEq] at h
            obtain ⟨_, rfl⟩ := h
            have := parseStringBody_length_le _ _ _ hw
            simp only [List.length_cons]
            omega
          · cases h
        · split at h
          · split at h
            · rename_i l rest1 hn
              simp only [Option.some.injEq, Prod.mk.injEq] at h
              obtain ⟨_, rfl⟩ := h
              exact parseNumber_length _ _ _ hn
            · cases h
          · split at h
            · rename_i rest1 hw
              simp only [Option.some.injEq, Prod.mk.injEq] at h
              obtain ⟨_, rfl⟩ := h
              exact stripWord_length _ _ _ hw
            · split at h
              · rename_i rest1 hw
                simp only [Option.some.injEq, Prod.mk.injEq] at h
                obtain ⟨_, rfl⟩ := h
                exact stripWord_length _ _ _ hw
              · split at h
                · rename_i rest1 hw
                  simp only [Option.some.injEq, Prod.mk.injEq] at h
                  obtain ⟨_, rfl⟩ := h
                  exact stripWord_length _ _ _ hw
                · cases h

theorem elementsStep_length (value : JsString → ValueResult)
    (elements : JsString → ElementsResult)
    (hv : ∀ x v r, value x = some (v, r) → r.length ≤ x.length)
    (he : ∀ x vs r, elements x = some (vs, r) → r.length ≤ x.length)
    (s : JsString) (vs : List JsValue) (r : JsString)
    (h : elementsStep value elements s = some (vs, r)) : r.length ≤ s.length := by
  unfold elementsStep at h
  split at h
  · cases h
  · rename_i v rest hval
    have h1 := hv _ _ _ hval
    split at h
    · cases h
    · rename_i c rest1 hws
      have hlen := skipWs_length_le rest
      rw [hws] at hlen
      simp only [List.length_cons] at hlen
      split at h
      · split at h
        · rename_i vs1 rest2 hel
          simp only [Option.some.injEq, Prod.mk.injEq] at h
          obtain ⟨_, rfl⟩ := h
          have h2 := he _ _ _ hel
          have h3 := skipWs_length_le rest1
          omega
        · cases h
      · split at h
        · simp only [Option.some.injEq, Prod.mk.injEq] at h
          obtain ⟨_, rfl⟩ := h
          omega
        · cases h

theorem membersStep_length (value : JsString → ValueResult)
    (members : JsString → MembersResult)
    (hv : ∀ x v r, value x = some (v, r) → r.length ≤ x.length)
    (hm : ∀ x ms r, members x = some (ms, r) → r.length ≤ x.length)
    (s : JsString) (ms : List (JsString × JsValue)) (r : JsString)
    (h : membersStep value members s = some (ms, r)) : r.length ≤ s.length := by
  unfold membersStep at h
  split at h
  · cases h
  · rename_i q rest
    split at h
    · split at h
      · cases h
      · rename_i key rest1 hkey
        have h1 := parseStringBody_length_le _ _ _ hkey
        split at h
        · cases h
        · rename_i c rest2 hws
          have h2 := skipWs_length_le rest1
          rw [hws] at h2
          simp only [List.length_cons] at h2 ⊢
          split at h
          · split at h
            · cases h
            · rename_i v rest3 hval
              have h3 := hv _ _ _ hval
              have h4 := skipWs_length_le rest2
              split at h
              · cases h
              · rename_i d rest4 hws2
                have h5 := skipWs_length_le rest3
                rw [hws2] at h5
                simp only [List.length_cons] at h5
                split at h
                · split at h
                  · rename_i ms1 rest5 hmem
                    simp only [Option.some.injEq, Prod.mk.injEq] at h
                    obtain ⟨_, rfl⟩ := h
                    have h6 := hm _ _ _ hmem
                    have h7 := skipWs_length_le rest4
                    omega
                  · cases h
                · split at h
                  · simp only [Option.some.injEq, Prod.mk.injEq] at h
                    obtain ⟨_, rfl⟩ := h
                    omega
                  · cases h
          · cases h
    · cases h

theorem parse_length (f : Nat) :
    (∀ x v r, parseValue f x = some (v, r) → r.length ≤ x.length) ∧
    (∀ x vs r, parseElements f x = some (vs, r) → r.length ≤ x.length) ∧
    (∀ x ms r, parseMembers f x = some (ms, r) → r.length ≤ x.length) := by
  induction f with
  | zero =>
    refine ⟨?_, ?_, ?_⟩
    · intro x v r h
      simp [parseValue] at h
    · intro x vs r h
      simp [parseElements] at h
    · intro x ms r h
      simp [parseMembers] at h
  | succ f ih =>
    obtain ⟨hv, he, hm⟩ := ih
    refine ⟨?_, ?_, ?_⟩
    · intro x v r h
      rw [parseValue] at h
      exact valueStep_length _ _ hm he x v r h
    · intro x vs r h
      rw [parseElements] at h
      exact elementsStep_length _ _ hv he x vs r h
    · intro x ms r h
      rw [parseMembers] at h
      exact membersStep_length _ _ hv hm x ms r h

theorem valueStep_congr (members members' : JsString → MembersResult)
    (elements elements' : JsString → ElementsResult) (s : JsString)
    (hm : ∀ x, x.length < s.length → members x = members' x)
    (he : ∀ x, x.length < s.length → elements x = elements' x) :
    valueStep members elements s = valueStep members' elements' s := by
  cases s with
  | nil => rfl
  | cons u rest =>
    have hlen := skipWs_length_le rest
    cases hws : skipWs rest with
    | nil => simp only [valueStep, hws]
    | cons c rest1 =>
      rw [hws] at hlen
      have hlt : (c :: rest1).length < (u :: rest).length := by
        simp only [List.length_cons] at hlen ⊢
        omega
      simp only [valueStep, hws, hm _ hlt, he _ hlt]

theorem elementsStep_congr (value value' : JsString → ValueResult)
    (elements elements' : JsString → ElementsResult) (s : JsString)
    (hlen : ∀ v r, value s = some (v, r) → r.length ≤ s.length)
    (hv : value s = value' s)
    (he : ∀ x, x.length < s.length → elements x = elements' x) :
    elementsStep value elements s = elementsStep value' elements' s := by
  unfold elementsStep
  rw [← hv]
  cases hval : value s with
  | none => rfl
  | some p =>
    obtain ⟨v, rest⟩ := p
    have h1 := hlen v rest hval
    have h2 := skipWs_length_le rest
    cases hws : skipWs rest with
    | nil => simp only [hws]
    | cons c rest1 =>
      rw [hws] at h2
      have h3 := skipWs_length_le rest1
      have hlt : (skipWs rest1).length < s.length := by
        simp only [List.length_cons] at h2
        omega
      simp only [hws, he _ hlt]

theorem membersStep_congr (value value' : JsString → ValueResult)
    (members members' : JsString → MembersResult) (s : JsString)
    (hlen : ∀ x v r, value x = some (v, r) → r.length ≤ x.length)
    (hv : ∀ x, x.length < s.length → value x = value' x)
    (hm : ∀ x, x.length < s.length → members x = members' x) :
    membersStep value members s = membersStep value' members' s := by
  cases s with
  | nil => rfl
  | cons q rest =>
    unfold membersStep
    simp only
    split
    · cases hkey : parseStringBody rest with
      | none => rfl
      | some p =>
        obtain ⟨key, rest1⟩ := p
        have h1 := parseStringBody_length_le _ _ _ hkey
        have h2 := skipWs_length_le rest1
        cases hws : skipWs rest1 with
        | nil => simp only [hws]
        | cons c rest2 =>
          rw [hws] at h2
          have h3 := skipWs_length_le rest2
          have hlt : (skipWs rest2).length < (q :: rest).length := by
            simp only [List.length_cons] at h2 ⊢
            omega
          simp only [hws, ← hv _ hlt]
          split
          · cases hval : value (skipWs rest2) with
            | none => rfl
            | some p2 =>
              obtain ⟨v, rest3⟩ := p2
              have h4 := hlen _ _ _ hval
              have h5 := skipWs_length_le rest3
              cases hws2 : skipWs rest3 with
              | nil => simp only [hws2]
              | cons d rest4 =>
                rw [hws2] at h5
                have h6 := skipWs_length_le rest4
                have hlt2 : (skipWs rest4).length < (q :: rest).length := by
                  simp only [List.length_cons] at h5 hlt ⊢
                  omega
                simp only [hws2, hm _ hlt2]
          · rfl
    · rfl

theorem parse_stable (f : Nat) :
    (∀ s : JsString, 2 * s.length + 1 ≤ f → parseValue (f + 1) s = parseValue f s) ∧
    (∀ s : JsString, 2 * s.length + 2 ≤ f → parseElements (f + 1) s = parseElements f s) ∧
    (∀ s : JsString, 2 * s.length + 2 ≤ f → parseMembers (f + 1) s = parseMembers f s) := by
  induction f with
  | zero =>
    refine ⟨?_, ?_, ?_⟩ <;> intro s h <;> omega
  | succ f ih =>
    obtain ⟨hv, he, hm⟩ := ih
    refine ⟨?_, ?_, ?_⟩
    · intro s h
      rw [parseValue, parseValue]
      apply valueStep_congr
      · intro x hx
        exact hm x (by omega)
      · intro x hx
        exact he x (by omega)
    · intro s h
      rw [parseElements, parseElements]
      apply elementsStep_congr
      · intro v r hval
        exact (parse_length (f + 1)).1 s v r hval
      · exact hv s (by omega)
      · intro x hx
        exact he x (by omega)
    · intro s h
      rw [parseMembers, parseMembers]
      apply membersStep_congr
      · exact (parse_length (f + 1)).1
      · intro x hx
        exact hv x (by omega)
      · intro x hx
        exact hm x (by omega)

theorem parseValue_fuel (text : JsString) (k : Nat) :
    parseValue (parseFuel text + k) (skipWs text) =
      parseValue (parseFuel text) (skipWs text) := by
  induction k with
  | zero => rfl
  | succ k ih =>
    rw [← ih, ← Nat.add_assoc]
    apply (parse_stable (parseFuel text + k)).1
    have := skipWs_length_le text
    unfold parseFuel
    omega

/-! ## The JSON reader on the text of a configuration record -/

theorem hexDigit_hexChar : ∀ n, n < 16 → hexDigit (hexChar n) = some n := by
  decide

theorem hex4_unicodeEscape (u : Nat) (hu : u < 65536) :
    hex4 (hexChar (u / 4096 % 16)) (hexChar (u / 256 % 16)) (hexChar (u / 16 % 16))
      (hexChar (u % 16)) = some u := by
  have h1 := hexDigit_hexChar (u / 4096 % 16) (Nat.mod_lt _ (by decide))
  have h2 := hexDigit_hexChar (u / 256 % 16) (Nat.mod_lt _ (by decide))
  have h3 := hexDigit_hexChar (u / 16 % 16) (Nat.mod_lt _ (by decide))
  have h4 := hexDigit_hexChar (u % 16) (Nat.mod_lt _ (by decide))
  simp only [hex4, h1, h2, h3, h4, Option.some.injEq]
  omega

theorem parseStringBody_unicodeEscape (u : Nat) (hu : u < 65536) (tail : JsString) :
    parseStringBody (unicodeEscape u ++ tail) = consUnit u (parseStringBody tail) := by
  have h := hex4_unicodeEscape u hu
  simp only [unicodeEscape, List.cons_append, List.nil_append]
  rw [parseStringBody.eq_def]
  simp [h]

theorem parseStringBody_literal (u : Nat) (h1 : u ≠ 0x22) (h2 : u ≠ 0x5C) (h3 : 0x20 ≤ u)
    (tail : JsString) :
    parseStringBody (u :: tail) = consUnit u (parseStringBody tail) := by
  rw [parseStringBody.eq_def]
  simp [h1, h2, Nat.not_lt.mpr h3]

theorem parseStringBody_quoteUnit (u : Nat) (tail : JsString) :
    parseStringBody (quoteUnit u ++ tail) = consUnit u (parseStringBody tail) := by
  unfold quoteUnit
  split
  · rename_i h
    have hu : u = 0x08 := by simpa using h
    subst hu
    rw [parseStringBody.eq_def]
    simp [simpleEscape]
  · split
    · rename_i h
      have hu : u = 0x09 := by simpa using h
      subst hu
      rw [parseStringBody.eq_def]
      simp [simpleEscape]
    · split
      · rename_i h
        have hu : u = 0x0A := by simpa using h
        subst hu
        rw [parseStringBody.eq_def]
        simp [simpleEscape]
      · split
        · rename_i h
          have hu : u = 0x0C := by simpa using h
          subst hu
          rw [parseStringBody.eq_def]
          simp [simpleEscape]
        · split
          · rename_i h
            have hu : u = 0x0D := by simpa using h
            subst hu
            rw [parseStringBody.eq_def]
            simp [simpleEscape]
          · split
            · rename_i h
              have hu : u = 0x22 := by simpa using h
              subst hu
              rw [parseStringBody.eq_def]
              simp [simpleEscape]
            · split
              · rename_i h
                have hu : u = 0x5C := by simpa using h
                subst hu
                rw [parseStringBody.eq_def]
                simp [simpleEscape]
              · rename_i h1 h2
                split
                · rename_i h
                  apply parseStringBody_unicodeEscape
                  simp only [Bool.or_eq_true, decide_eq_true_eq, isLeadSurrogate,
                    isTrailSurrogate, Bool.and_eq_true] at h
                  omega
                · rename_i h
                  simp only [Bool.or_eq_true, decide_eq_true_eq, not_or, Nat.not_lt] at h
                  apply parseStringBody_literal
                  · simpa using h1
                  · simpa using h2
                  · exact h.1.1

theorem parseStringBody_quote (tail : JsString) :
    parseStringBody (0x22 :: tail) = some ([], tail) := by
  rw [parseStringBody.eq_def]
  simp

theorem parseStringBody_quoteUnits (n : Nat) : ∀ (a tail : JsString), a.length ≤ n →
    parseStringBody (quoteUnits a ++ 0x22 :: tail) = some (a, tail) := by
  induction n with
  | zero =>
    intro a tail hn
    have ha : a = [] := List.length_eq_zero.mp (Nat.le_zero.mp hn)
    subst ha
    exact parseStringBody_quote tail
  | succ n ih =>
    intro a tail hn
    match a, hn with
    | [], _ => exact parseStringBody_quote tail
    | [u], _ =>
      rw [quoteUnits, parseStringBody_quoteUnit, parseStringBody_quote]
      rfl
    | u :: l :: rest, hn =>
      have hrest : rest.length ≤ n := by
        simp only [List.length_cons] at hn
        omega
      have hlrest : (l :: rest).length ≤ n := by
        simp only [List.length_cons] at hn ⊢
        omega
      rw [quoteUnits]
      split
      · rename_i h
        simp only [Bool.and_eq_true, isLeadSurrogate, isTrailSurrogate,
          decide_eq_true_eq] at h
        simp only [List.cons_append]
        rw [parseStringBody_literal u (by omega) (by omega) (by omega),
          parseStringBody_literal l (by omega) (by omega) (by omega), ih rest tail hrest]
        rfl
      · rw [List.append_assoc, parseStringBody_quoteUnit, ih (l :: rest) tail hlrest]
        rfl

theorem parseStringBody_quoted (a tail : JsString) :
    parseStringBody (quoteUnits a ++ 0x22 :: tail) = some (a, tail) :=
  parseStringBody_quoteUnits a.length a tail (Nat.le_refl _)

theorem parseStringBody_emailAddress (tail : JsString) :
    parseStringBody (utf16 "emailAddress" ++ 0x22 :: tail) =
      some (utf16 "emailAddress", tail) :=
  parseStringBody_quoted (utf16 "emailAddress") tail

theorem parseValue_quoted (f : Nat) (a tail : JsString) :
    parseValue (f + 1) (0x22 :: (quoteUnits a ++ 0x22 :: tail)) =
      some (JsValue.str a, tail) := by
  rw [parseValue]
  simp [valueStep, parseStringBody_quoted]

theorem parseMembers_emailAddress (f : Nat) (a : JsString) :
    parseMembers (f + 2)
        (0x22 :: (utf16 "emailAddress" ++
          0x22 :: 0x3A :: 0x22 :: (quoteUnits a ++ 0x22 :: [0x7D]))) =
      some ([(utf16 "emailAddress", JsValue.str a)], []) := by
  rw [parseMembers]
  simp [membersStep, parseStringBody_emailAddress, skipWs, isJsonWhiteSpace,
    parseValue_quoted]

theorem stringifyEmailAddress_eq (a : JsString) :
    stringifyEmailAddress a =
      0x7B :: 0x22 :: (utf16 "emailAddress" ++
        0x22 :: 0x3A :: 0x22 :: (quoteUnits a ++ 0x22 :: [0x7D])) := by
  have h1 : utf16 "\x7b\"emailAddress\":\"" =
      0x7B :: 0x22 :: (utf16 "emailAddress" ++ [0x22, 0x3A, 0x22]) := by decide
  have h2 : utf16 "\"\x7d" = [0x22, 0x7D] := by decide
  simp [stringifyEmailAddress, h1, h2]

theorem JSON.parse_stringifyEmailAddress (a : JsString) :
    JSON.parse (stringifyEmailAddress a) =
      Except.ok (JsValue.obj [(utf16 "emailAddress", JsValue.str a)]) := by
  have hfuel : ∃ f, parseFuel (stringifyEmailAddress a) = f + 3 := by
    refine ⟨2 * (stringifyEmailAddress a).length - 1, ?_⟩
    have : 1 ≤ (stringifyEmailAddress a).length := by
      rw [stringifyEmailAddress_eq]
      simp
    unfold parseFuel
    omega
  obtain ⟨f, hf⟩ := hfuel
  unfold JSON.parse
  rw [hf, stringifyEmailAddress_eq]
  have hskip : ∀ tail : JsString, skipWs (0x7B :: tail) = 0x7B :: tail := by
    intro tail
    simp [skipWs, isJsonWhiteSpace]
  rw [hskip, parseValue]
  simp [valueStep, skipWs, isJsonWhiteSpace, parseMembers_emailAddress, mkObject, setProp]

/-! ## The summary request -/

/-- C2: when the selected value is empty or made of white space only, the click
handler ends normally and does nothing but call `showError` with the text
"Please select a valid email address.": that call is its only action, so no timer
for `generateSummary` is scheduled, and the page, the loading indicator included, is
left as it was. -/
theorem generateSummaryClick_blank (s : State) (v : JsString)
    (hsel : s.dom.emailSelect = some v) (hblank : ∀ u ∈ v, isWhiteSpace u = true) :
    (generateSummaryClick s).thrown = none ∧
    (generateSummaryClick s).state =
      showError (utf16 "Please select a valid email address.") s ∧
    (generateSummaryClick s).state.errorMessage =
      some (utf16 "Please select a valid email address.") ∧
    (generateSummaryClick s).state.log =
      s.log ++ [Effect.showError (utf16 "Please select a valid email address.")] ∧
    (generateSummaryClick s).state.dom = s.dom := by
  have ht := trim_eq_nil_of_blank v hblank
  simp [generateSummaryClick, hsel, ht, showError]

theorem generateSummaryClick_blank_witness :
    (selected (utf16 " \t ") State.init).dom.emailSelect = some (utf16 " \t ") ∧
    (∀ u ∈ utf16 " \t ", isWhiteSpace u = true) ∧
    (generateSummaryClick (selected (utf16 " \t ") State.init)).state.log =
      State.init.log ++ [Effect.showError (utf16 "Please select a valid email address.")] :=
  ⟨rfl, by decide,
    (generateSummaryClick_blank (selected (utf16 " \t ") State.init) (utf16 " \t ")
      rfl (by decide)).2.2.2.1⟩

theorem summaryCallback_log (summary : Option SummaryValue) (error : Option JsString)
    (s : State) :
    ∃ rest, (summaryCallback summary error s).log =
        s.log ++ Effect.hide Region.loadingIndicator :: rest ∧
      rest.countP Effect.isHideLoading = 0 ∧
      rest.countP Effect.isShowSummaryOutput + rest.countP Effect.isShowError = 1 := by
  cases summary with
  | none =>
    exact ⟨[Effect.showError (utf16 "Could not generate summary: " ++ errorText error)],
      by simp [summaryCallback, showError, jqHide], rfl, rfl⟩
  | some v =>
    cases v with
    | record r =>
      exact ⟨[Effect.text TextRegion.bioSummaryText r.bio,
          Effect.text TextRegion.interactionSummaryText r.interaction,
          Effect.text TextRegion.marketSummaryText r.market,
          Effect.show Region.summaryOutput],
        by simp [summaryCallback, jqHide, jqText, jqShow, SummaryValue.bio,
          SummaryValue.interaction, SummaryValue.market], rfl, rfl⟩
    | inherited k =>
      exact ⟨[Effect.show Region.summaryOutput],
        by simp [summaryCallback, jqHide, jqText, jqShow, SummaryValue.bio,
          SummaryValue.interaction, SummaryValue.market], rfl, rfl⟩

theorem generateSummaryClick_log (s : State) (v : JsString)
    (hsel : s.dom.emailSelect = some v) (hne : trim v ≠ []) :
    (generateSummaryClick s).thrown = none ∧
    (generateSummaryClick s).state.log =
      s.log ++ [Effect.show Region.loadingIndicator, Effect.setTimeout 1000 (trim v)] := by
  simp [generateSummaryClick, hsel, hne, generateSummary, jqShow]

theorem actionsSince_append (s t : State) (actions : List Effect)
    (h : t.log = s.log ++ actions) : actionsSince s t = actions := by
  simp [actionsSince, h]

theorem summaryRequest_eq_completeRequest (E : Engine) (s : State) :
    summaryRequest E s = completeRequest E s (generateSummaryClick s).state := by
  unfold summaryRequest completeRequest
  cases hsel : s.dom.emailSelect with
  | none =>
    have hact : actionsSince s (generateSummaryClick s).state = [] :=
      actionsSince_append s _ [] (by simp [generateSummaryClick, hsel])
    simp [hact, scheduledTimers, runTimers]
  | some v =>
    by_cases hne : trim v = []
    · have hact : actionsSince s (generateSummaryClick s).state =
          [Effect.showError (utf16 "Please select a valid email address.")] :=
        actionsSince_append s _ _ (by simp [generateSummaryClick, hsel, hne, showError])
      simp [hne, hact, scheduledTimers, runTimers]
    · have hact := actionsSince_append s _ _ (generateSummaryClick_log s v hsel hne).2
      simp [hne, hact, scheduledTimers, runTimers]

/-- C5: for a selected value that is not empty after trimming, the click ends
normally and its actions are exactly: show the loading indicator, schedule one timer
of `generateSummary` for the trimmed value.  Firing the timers the click scheduled,
in whatever state `s'` the page has reached by then, is one run of the scheduled
function with the callback of the click handler.  The actions of the click followed
by those of that completion hide the loading indicator exactly once and contain
exactly one action that reveals the summary output or shows an error. -/
theorem summaryRequest_one_outcome (E : Engine) (s s' : State) (v : JsString)
    (hsel : s.dom.emailSelect = some v) (hne : trim v ≠ []) :
    (generateSummaryClick s).thrown = none ∧
    (generateSummaryClick s).state.log =
      s.log ++ actionsSince s (generateSummaryClick s).state ∧
    actionsSince s (generateSummaryClick s).state =
      [Effect.show Region.loadingIndicator, Effect.setTimeout 1000 (trim v)] ∧
    scheduledTimers (actionsSince s (generateSummaryClick s).state) = [trim v] ∧
    completeRequest E s s' = generateSummaryTimeout E (trim v) summaryCallback s' ∧
    (completeRequest E s s').log = s'.log ++ actionsSince s' (completeRequest E s s') ∧
    (actionsSince s (generateSummaryClick s).state ++
      actionsSince s' (completeRequest E s s')).countP Effect.isHideLoading = 1 ∧
    (actionsSince s (generateSummaryClick s).state ++
        actionsSince s' (completeRequest E s s')).countP Effect.isShowSummaryOutput +
      (actionsSince s (generateSummaryClick s).state ++
        actionsSince s' (completeRequest E s s')).countP Effect.isShowError = 1 ∧
    summaryRequest E s = completeRequest E s (generateSummaryClick s).state := by
  obtain ⟨rest, hlog, hhide, hone⟩ :=
    summaryCallback_log (some (lookupSummary E (trim v))) none s'
  obtain ⟨hthrown, hclick⟩ := generateSummaryClick_log s v hsel hne
  have hact := actionsSince_append s _ _ hclick
  have htimers : scheduledTimers (actionsSince s (generateSummaryClick s).state) =
      [trim v] := by
    rw [hact]
    rfl
  have hdone : completeRequest E s s' =
      generateSummaryTimeout E (trim v) summaryCallback s' := by
    unfold completeRequest
    rw [htimers]
    rfl
  have hlog' : (completeRequest E s s').log =
      s'.log ++ Effect.hide Region.loadingIndicator :: rest := by
    rw [hdone]
    exact hlog
  have hdoneAct := actionsSince_append s' _ _ hlog'
  refine ⟨hthrown, ?_, hact, htimers, hdone, ?_, ?_, ?_,
    summaryRequest_eq_completeRequest E s⟩
  · rw [hact]
    exact hclick
  · rw [hdoneAct]
    exact hlog'
  · rw [hact, hdoneAct]
    simp [List.countP_cons, Effect.isHideLoading, hhide]
  · rw [hact, hdoneAct]
    simp only [List.countP_append, List.countP_cons, List.countP_nil,
      Effect.isShowSummaryOutput, Effect.isShowError]
    simpa using hone

theorem summaryRequest_one_outcome_witness :
    (selected (utf16 "demo@example.com") State.init).dom.emailSelect =
      some (utf16 "demo@example.com") ∧
    trim (utf16 "demo@example.com") ≠ [] ∧
    actionsSince (selected (utf16 "demo@example.com") State.init)
        (generateSummaryClick (selected (utf16 "demo@example.com") State.init)).state =
      [Effect.show Region.loadingIndicator,
        Effect.setTimeout 1000 (trim (utf16 "demo@example.com"))] ∧
    (actionsSince (selected (utf16 "demo@example.com") State.init)
        (generateSummaryClick (selected (utf16 "demo@example.com") State.init)).state ++
      actionsSince dialogOpenState
        (completeRequest asciiEngine (selected (utf16 "demo@example.com") State.init)
          dialogOpenState)).countP Effect.isHideLoading = 1 :=
  ⟨rfl, by decide,
    (summaryRequest_one_outcome asciiEngine (selected (utf16 "demo@example.com") State.init)
      dialogOpenState (utf16 "demo@example.com") rfl (by decide)).2.2.1,
    (summaryRequest_one_outcome asciiEngine (selected (utf16 "demo@example.com") State.init)
      dialogOpenState (utf16 "demo@example.com") rfl (by decide)).2.2.2.2.2.2.1⟩

/-- C6: in the click handler the loading indicator is shown before the backend timer
is scheduled; in the completion callback hiding the loading indicator is the first
action on every branch: before the three texts are written and the summary output is
revealed when a record arrives, and before the error is shown when no summary
arrives. -/
theorem loadingIndicator_order (s : State) (v : JsString)
    (hsel : s.dom.emailSelect = some v) (hne : trim v ≠ []) :
    (generateSummaryClick s).state.log =
      s.log ++ [Effect.show Region.loadingIndicator, Effect.setTimeout 1000 (trim v)] ∧
    (∀ (r : Summary) (error : Option JsString) (s' : State),
      (summaryCallback (some (SummaryValue.record r)) error s').log =
        s'.log ++ [Effect.hide Region.loadingIndicator,
          Effect.text TextRegion.bioSummaryText r.bio,
          Effect.text TextRegion.interactionSummaryText r.interaction,
          Effect.text TextRegion.marketSummaryText r.market,
          Effect.show Region.summaryOutput]) ∧
    (∀ (error : Option JsString) (s' : State),
      (summaryCallback none error s').log =
        s'.log ++ [Effect.hide Region.loadingIndicator,
          Effect.showError (utf16 "Could not generate summary: " ++ errorText error)]) ∧
    (∀ (summary : Option SummaryValue) (error : Option JsString) (s' : State),
      ∃ rest, (summaryCallback summary error s').log =
          s'.log ++ Effect.hide Region.loadingIndicator :: rest ∧
        rest.countP Effect.isHideLoading = 0) := by
  refine ⟨(generateSummaryClick_log s v hsel hne).2, ?_, ?_, ?_⟩
  · intro r error s'
    simp [summaryCallback, jqHide, jqText, jqShow, SummaryValue.bio,
      SummaryValue.interaction, SummaryValue.market]
  · intro error s'
    simp [summaryCallback, showError, jqHide]
  · intro summary error s'
    obtain ⟨rest, hlog, hhide, _⟩ := summaryCallback_log summary error s'
    exact ⟨rest, hlog, hhide⟩

theorem loadingIndicator_order_witness :
    (selected (utf16 " janedoe@example.com ") State.init).dom.emailSelect =
      some (utf16 " janedoe@example.com ") ∧
    trim (utf16 " janedoe@example.com ") ≠ [] ∧
    (generateSummaryClick (selected (utf16 " janedoe@example.com ") State.init)).state.log =
      [Effect.show Region.loadingIndicator,
        Effect.setTimeout 1000 (utf16 "janedoe@example.com")] :=
  ⟨rfl, by decide,
    (loadingIndicator_order (selected (utf16 " janedoe@example.com ") State.init)
      (utf16 " janedoe@example.com ") rfl (by decide)).1⟩

/-- C9: when the completion callback is called with no summary and a failure detail
`d`, it hides the loading indicator and then shows the error
"Could not generate summary: " followed by `d`; the summary output region keeps its
visibility and no text of the page is written. -/
theorem summaryCallback_failure (d : JsString) (s : State) :
    summaryCallback none (some d) s =
      showError (utf16 "Could not generate summary: " ++ d)
        (jqHide Region.loadingIndicator s) ∧
    (summaryCallback none (some d) s).log =
      s.log ++ [Effect.hide Region.loadingIndicator,
        Effect.showError (utf16 "Could not generate summary: " ++ d)] ∧
    (summaryCallback none (some d) s).errorMessage =
      some (utf16 "Could not generate summary: " ++ d) ∧
    (summaryCallback none (some d) s).dom.visible Region.summaryOutput =
      s.dom.visible Region.summaryOutput ∧
    (summaryCallback none (some d) s).dom.text = s.dom.text := by
  simp [summaryCallback, showError, jqHide, errorText, Dom.setVisible]

/-! ## The mock backend -/

theorem mockSummariesGet_known (key : JsString) (r : Summary)
    (hkey : (key, r) ∈ mockSummaries) :
    mockSummariesGet key = some (SummaryValue.record r) := by
  simp only [mockSummaries, List.mem_cons, Prod.mk.injEq, List.mem_nil_iff, or_false] at hkey
  rcases hkey with ⟨rfl, rfl⟩ | ⟨rfl, rfl⟩
  · rfl
  · rfl

/-- C4: when the lower-cased identifier is a known address, the timer function of
`generateSummary` calls the callback with exactly the record stored for that address
and a `null` error; hence two identifiers with the same lower-cased known address
deliver the same record. -/
theorem generateSummary_known (E : Engine) (e1 e2 key : JsString) (r : Summary)
    (callback : Option SummaryValue → Option JsString → State → State) (s : State)
    (hkey : (key, r) ∈ mockSummaries)
    (h1 : E.toLowerCase e1 = key) (h2 : E.toLowerCase e2 = key) :
    generateSummaryTimeout E e1 callback s =
      callback (some (SummaryValue.record r)) none s ∧
    generateSummaryTimeout E e2 callback s =
      callback (some (SummaryValue.record r)) none s ∧
    lookupSummary E e1 = lookupSummary E e2 := by
  have hget := mockSummariesGet_known key r hkey
  simp [generateSummaryTimeout, lookupSummary, h1, h2, hget]

theorem generateSummary_known_witness :
    (utf16 "johnsmith@example.com", johnSmithSummary) ∈ mockSummaries ∧
    asciiEngine.toLowerCase (utf16 "JohnSmith@Example.com") = utf16 "johnsmith@example.com" ∧
    asciiEngine.toLowerCase (utf16 "johnsmith@example.com") = utf16 "johnsmith@example.com" ∧
    johnSmithSummary.bio = utf16
      "John Smith is a senior product manager at Acme Corp with a background in finance." ∧
    generateSummaryTimeout asciiEngine (utf16 "JohnSmith@Example.com") summaryCallback
        State.init =
      summaryCallback (some (SummaryValue.record johnSmithSummary)) none State.init ∧
    generateSummaryTimeout asciiEngine (utf16 "johnsmith@example.com") summaryCallback
        State.init =
      summaryCallback (some (SummaryValue.record johnSmithSummary)) none State.init :=
  ⟨List.mem_cons_self _ _, by decide, by decide, rfl,
    (generateSummary_known asciiEngine (utf16 "JohnSmith@Example.com")
      (utf16 "johnsmith@example.com") (utf16 "johnsmith@example.com") johnSmithSummary
      summaryCallback State.init (List.mem_cons_self _ _) (by decide) (by decide)).1,
    (generateSummary_known asciiEngine (utf16 "JohnSmith@Example.com")
      (utf16 "johnsmith@example.com") (utf16 "johnsmith@example.com") johnSmithSummary
      summaryCallback State.init (List.mem_cons_self _ _) (by decide) (by decide)).2.1⟩

theorem lookupSummary_fallback (E : Engine) (e : JsString)
    (hknown : ∀ r, (E.toLowerCase e, r) ∉ mockSummaries)
    (hproto : E.toLowerCase e ∉ objectPrototypeKeys) :
    lookupSummary E e = SummaryValue.record (fallbackSummary e) := by
  have hlookup : mockSummaries.lookup (E.toLowerCase e) = none := by
    have h1 := hknown johnSmithSummary
    have h2 := hknown janeDoeSummary
    simp only [mockSummaries, List.mem_cons, Prod.mk.injEq, List.mem_nil_iff, or_false,
      and_true, not_or] at h1 h2
    have b1 : (E.toLowerCase e == utf16 "johnsmith@example.com") = false := by
      simpa using h1.1
    have b2 : (E.toLowerCase e == utf16 "janedoe@example.com") = false := by
      simpa using h2.2
    simp only [mockSummaries, List.lookup, b1, b2]
  simp [lookupSummary, mockSummariesGet, hlookup, hproto]

theorem lookupSummary_inherited (E : Engine) (e : JsString)
    (hknown : ∀ r, (E.toLowerCase e, r) ∉ mockSummaries)
    (hproto : E.toLowerCase e ∈ objectPrototypeKeys) :
    lookupSummary E e = SummaryValue.inherited (E.toLowerCase e) := by
  have hlookup : mockSummaries.lookup (E.toLowerCase e) = none := by
    have h1 := hknown johnSmithSummary
    have h2 := hknown janeDoeSummary
    simp only [mockSummaries, List.mem_cons, Prod.mk.injEq, List.mem_nil_iff, or_false,
      and_true, not_or] at h1 h2
    have b1 : (E.toLowerCase e == utf16 "johnsmith@example.com") = false := by
      simpa using h1.1
    have b2 : (E.toLowerCase e == utf16 "janedoe@example.com") = false := by
      simpa using h2.2
    simp only [mockSummaries, List.lookup, b1, b2]
  simp [lookupSummary, mockSummariesGet, hlookup, hproto]

/-- C3, at the identifier "constructor": it is none of the two known addresses, yet
the lookup finds the function every object inherits under that name, so the callback
receives that function, whose `bio`, `interaction` and `market` are `undefined`, with
a `null` error, and not the placeholder record. -/
theorem generateSummary_constructor :
    mockSummaries.lookup (asciiEngine.toLowerCase (utf16 "constructor")) = none ∧
    lookupSummary asciiEngine (utf16 "constructor") =
      SummaryValue.inherited (utf16 "constructor") ∧
    lookupSummary asciiEngine (utf16 "constructor") ≠
      SummaryValue.record (fallbackSummary (utf16 "constructor")) ∧
    (lookupSummary asciiEngine (utf16 "constructor")).bio = none ∧
    ∀ (callback : Option SummaryValue → Option JsString → State → State) (s : State),
      generateSummaryTimeout asciiEngine (utf16 "constructor") callback s =
        callback (some (SummaryValue.inherited (utf16 "constructor"))) none s :=
  ⟨by decide, by decide, by decide, by decide, fun _ _ => rfl⟩

/-! ## Rendering of a completed request -/

theorem summaryCallback_record (r : Summary) (error : Option JsString) (s : State) :
    (summaryCallback (some (SummaryValue.record r)) error s).dom.text
        TextRegion.bioSummaryText = r.bio ∧
    (summaryCallback (some (SummaryValue.record r)) error s).dom.text
        TextRegion.interactionSummaryText = r.interaction ∧
    (summaryCallback (some (SummaryValue.record r)) error s).dom.text
        TextRegion.marketSummaryText = r.market ∧
    (summaryCallback (some (SummaryValue.record r)) error s).dom.visible
        Region.summaryOutput = true ∧
    (summaryCallback (some (SummaryValue.record r)) error s).dom.visible
        Region.loadingIndicator = false := by
  simp [summaryCallback, jqHide, jqText, jqShow, SummaryValue.bio,
    SummaryValue.interaction, SummaryValue.market, Dom.setText, Dom.setVisible]

theorem summaryRequest_record (E : Engine) (s : State) (v : JsString) (r : Summary)
    (hsel : s.dom.emailSelect = some v) (hne : trim v ≠ [])
    (hrec : lookupSummary E (trim v) = SummaryValue.record r) :
    (summaryRequest E s).dom.text TextRegion.bioSummaryText = r.bio ∧
    (summaryRequest E s).dom.text TextRegion.interactionSummaryText = r.interaction ∧
    (summaryRequest E s).dom.text TextRegion.marketSummaryText = r.market ∧
    (summaryRequest E s).dom.visible Region.summaryOutput = true := by
  have h := summaryCallback_record r none (generateSummaryClick s).state
  simp only [summaryRequest, hsel, hne, if_false, generateSummaryTimeout, hrec]
  exact ⟨h.1, h.2.1, h.2.2.1, h.2.2.2.1⟩

/-- C7, at the selected value "constructor" after a request for
"johnsmith@example.com": the value is not empty after trimming and the request
completes with the summary output visible, but the three texts are not written: they
still hold the record of the earlier request and not the fields of what
`generateSummary` delivered, nor the placeholder texts for "constructor". -/
theorem summaryRequest_constructor_stale :
    constructorSelected.dom.emailSelect = some (utf16 "constructor") ∧
    trim (utf16 "constructor") ≠ [] ∧
    lookupSummary asciiEngine (trim (utf16 "constructor")) =
      SummaryValue.inherited (utf16 "constructor") ∧
    (summaryRequest asciiEngine constructorSelected).dom.visible Region.summaryOutput = true ∧
    (summaryRequest asciiEngine constructorSelected).dom.text TextRegion.bioSummaryText =
      johnSmithSummary.bio ∧
    (summaryRequest asciiEngine constructorSelected).dom.text
      TextRegion.interactionSummaryText = johnSmithSummary.interaction ∧
    (summaryRequest asciiEngine constructorSelected).dom.text TextRegion.marketSummaryText =
      johnSmithSummary.market ∧
    (summaryRequest asciiEngine constructorSelected).dom.text TextRegion.bioSummaryText ≠
      (fallbackSummary (utf16 "constructor")).bio :=
  ⟨rfl, by decide, by decide, by decide, by decide, by decide, by decide, by decide⟩

/-! ## The settings dialog -/

/-- C8: the handler `dialogClosed` sets `settingsDialog` to `null` and changes
nothing else, in every state and so in every state with the dialog open: `config`,
the visibility and text of every region, the last error message, the dialog shown by
the host and the list of actions are as before. -/
theorem dialogClosed_frame (message : DialogEvent) (s : State) :
    (dialogClosed message s).settingsDialog = DialogRef.null ∧
    (dialogClosed message s).config = s.config ∧
    (dialogClosed message s).dom = s.dom ∧
    (dialogClosed message s).errorMessage = s.errorMessage ∧
    (dialogClosed message s).dialogShown = s.dialogShown ∧
    (dialogClosed message s).log = s.log :=
  ⟨rfl, rfl, rfl, rfl, rfl, rfl⟩

/-- C10: when the payload of a dialog message is not parseable by `JSON.parse`,
`receiveMessage` ends with the `SyntaxError` of the parse step in the state it
started from: `config`, `settingsDialog`, the dialog, the page and the list of
actions are all unchanged. -/
theorem receiveMessage_malformed (E : Engine) (message : DialogMessage) (s : State)
    (hbad : ∀ v, JSON.parse message.message ≠ Except.ok v) :
    (receiveMessage E message s).thrown = some JsError.SyntaxError ∧
    (receiveMessage E message s).state = s := by
  unfold receiveMessage
  cases hparse : JSON.parse message.message with
  | error e =>
    have he := JSON.parse_error message.message e hparse
    subst he
    exact ⟨rfl, rfl⟩
  | ok v => exact absurd hparse (hbad v)

theorem receiveMessage_malformed_witness :
    (∀ v, JSON.parse (DialogMessage.mk (utf16 "a@b.com")).message ≠ Except.ok v) ∧
    (receiveMessage asciiEngine (DialogMessage.mk (utf16 "a@b.com")) dialogOpenState).thrown =
      some JsError.SyntaxError ∧
    (receiveMessage asciiEngine (DialogMessage.mk (utf16 "a@b.com")) dialogOpenState).state =
      dialogOpenState :=
  ⟨fun v h => Except.noConfusion
      (show (Except.error JsError.SyntaxError : Except JsError JsValue) = Except.ok v from h),
    receiveMessage_malformed asciiEngine (DialogMessage.mk (utf16 "a@b.com")) dialogOpenState
      (fun v h => Except.noConfusion
        (show (Except.error JsError.SyntaxError : Except JsError JsValue) = Except.ok v
          from h))⟩

/-- C1: when `settingsDialog` holds a dialog and the payload of the message parses to
the record with the single property `emailAddress` of string value `a`,
`receiveMessage` ends normally with the dialog closed, `settingsDialog` equal to
`null`, `config` equal to that record, `#not-configured` hidden,
`#configured-section` visible and the text of `#email-display` equal to
"Configured for: " followed by `a`; its actions are, in order: the `setConfig`
request, closing the dialog, hiding, showing and writing the text. -/
theorem receiveMessage_configures (E : Engine) (message : DialogMessage) (s : State)
    (a : JsString) (hopen : s.settingsDialog = DialogRef.handle)
    (hmsg : JSON.parse message.message =
      Except.ok (JsValue.obj [(utf16 "emailAddress", JsValue.str a)])) :
    (receiveMessage E message s).thrown = none ∧
    (receiveMessage E message s).state.dialogShown = false ∧
    (receiveMessage E message s).state.settingsDialog = DialogRef.null ∧
    (receiveMessage E message s).state.config =
      some (JsValue.obj [(utf16 "emailAddress", JsValue.str a)]) ∧
    (receiveMessage E message s).state.dom.visible Region.notConfigured = false ∧
    (receiveMessage E message s).state.dom.visible Region.configuredSection = true ∧
    (receiveMessage E message s).state.dom.text TextRegion.emailDisplay =
      utf16 "Configured for: " ++ a ∧
    (receiveMessage E message s).state.log =
      s.log ++ [Effect.setConfig (JsValue.obj [(utf16 "emailAddress", JsValue.str a)]),
        Effect.close, Effect.hide Region.notConfigured,
        Effect.show Region.configuredSection,
        Effect.text TextRegion.emailDisplay (utf16 "Configured for: " ++ a)] := by
  have hget : getEmailAddress (JsValue.obj [(utf16 "emailAddress", JsValue.str a)]) =
      Except.ok (some (JsValue.str a)) := rfl
  simp [receiveMessage, hmsg, setConfig, setConfigCallback, hopen, hget, configuredFor,
    toStringValue, jqHide, jqShow, jqText, Dom.setVisible, Dom.setText]

theorem receiveMessage_configures_witness :
    dialogOpenState.settingsDialog = DialogRef.handle ∧
    JSON.parse (DialogMessage.mk (utf16 "\x7b\"emailAddress\":\"a@b.com\"\x7d")).message =
      Except.ok (JsValue.obj [(utf16 "emailAddress", JsValue.str (utf16 "a@b.com"))]) ∧
    (receiveMessage asciiEngine
      (DialogMessage.mk (utf16 "\x7b\"emailAddress\":\"a@b.com\"\x7d"))
      dialogOpenState).state.dom.text TextRegion.emailDisplay =
      utf16 "Configured for: " ++ utf16 "a@b.com" :=
  ⟨rfl, rfl,
    (receiveMessage_configures asciiEngine
      (DialogMessage.mk (utf16 "\x7b\"emailAddress\":\"a@b.com\"\x7d"))
      dialogOpenState (utf16 "a@b.com") rfl rfl).2.2.2.2.2.2.1⟩

end Taskpane
